import Mathlib

/-!
Shallow embedding of the thalamus transcript-refinement pipeline
(`transcript_refiner.py`, `database.py`, `audit_segment_usage.py`).

Modelling conventions:
* Python floats are modelled as rationals (`ℚ`); every comparison relevant
  to the claims is far from any floating-point rounding boundary.
* Python strings are Lean `String`s; `str.strip` is `String.trim`,
  `str.split()` is splitting on whitespace and dropping empty pieces.
* Python's stable in-place `list.sort(key=start_time)` is `List.mergeSort`
  on the start-time order (also stable).
* The sqlite database is a record of the `segments` and `refined_segments`
  tables.  `INSERT` statements append a row; the columns a statement does
  not mention keep their schema defaults (`is_locked` 0, `phase` 0), exactly
  as in `database.py`.
* Calls to the external text service (`call_openai_text`) are abstracted to
  a `ServiceResult` argument: the call raised, returned a falsy value, or
  returned a reply whose line-prefixed fields have already been parsed
  (missing fields keep the parser defaults `None` / `0.0` / `False`).
-/

/-- Sentence-ending strings, from `TranscriptRefiner.__init__`
(`self.sentence_endings = ['.', '!', '?', '...']`). -/
def sentence_endings : List String := [".", "!", "?", "..."]

/-- Model of `TranscriptRefiner.is_complete_sentence`: strip the text and
test whether it ends with one of `sentence_endings`. -/
def is_complete_sentence (text : String) : Bool :=
  sentence_endings.any (fun e => text.trim.endsWith e)

/-- Number of words of a Python `text.split()` (split on whitespace runs,
empty pieces dropped). -/
def wordCount (text : String) : Nat :=
  ((text.split (fun c => c.isWhitespace)).filter (fun w => w ≠ "")).length

/-- Model of `TranscriptRefiner.calculate_confidence` (`transcript_refiner.py`
lines 54-68).  `if not text: return 0.0` is the empty-string test; the
segment list only enters through its length. -/
def calculate_confidence {α : Type} (text : String) (segments : List α) : ℚ :=
  if text = "" then 0
  else
    let base_confidence : ℚ := if is_complete_sentence text then 0.7 else 0.3
    let segment_factor : ℚ := min ((segments.length : ℚ) / 3) 1
    let length_factor : ℚ := min ((wordCount text : ℚ) / 10) 1
    min (base_confidence + segment_factor * 0.2 + length_factor * 0.1) 1

/-- One row of the `segments` table joined with `speakers.speaker_name`,
as returned by `get_unrefined_segments`. -/
structure RawSegment where
  id : Nat
  session_id : Nat
  speaker_id : Nat
  speaker_name : String
  text : String
  start_time : ℚ
  end_time : ℚ
deriving DecidableEq, Repr

/-- Stable sort by start time: Python `segments.sort(key=lambda x:
float(x['start_time']))`. -/
def sortByStart (segments : List RawSegment) : List RawSegment :=
  segments.mergeSort (fun a b => a.start_time ≤ b.start_time)

/-- Model of `TranscriptRefiner.combine_segments` (lines 70-85): sort by
start time, join the stripped texts with single spaces, and return the
first segment's start time and the LAST (by start time) segment's end
time. -/
def combine_segments (segments : List RawSegment) : String × ℚ × ℚ :=
  match sortByStart segments with
  | [] => ("", 0, 0)
  | first :: rest =>
    let text := String.intercalate " " ((first :: rest).map (fun s => s.text.trim))
    (text, first.start_time, (rest.getLastD first).end_time)

/-- The JSON `metadata` dict stored with a refined segment.  Every field is
optional because Python reads them with `dict.get` defaults; `lock_reason`
holds `some none` when the key is present with value `None`. -/
structure Metadata where
  phase : Option Nat := none
  is_locked : Option Bool := none
  is_combined : Option Bool := none
  needs_refinement : Option Bool := none
  corrections_applied : Option Bool := none
  confidence : Option ℚ := none
  is_complete : Option Bool := none
  refinement_attempts : Option Nat := none
  first_attempt_time : Option ℚ := none
  last_attempt_time : Option ℚ := none
  lock_reason : Option (Option String) := none
  original_speaker : Option String := none
  original_speaker_id : Option Nat := none
  start_time : Option ℚ := none
  end_time : Option ℚ := none
deriving DecidableEq, Repr

/-- One row of the `refined_segments` table (`database.py` lines 62-78).
`is_locked` and `phase` are the table COLUMNS (schema defaults 0), distinct
from the homonymous keys inside the JSON `metadata`.  `source_segments` is
the parsed form of the stored JSON id array. -/
structure RefinedSegment where
  id : Nat
  session_id : Nat
  refined_speaker_id : String
  text : String
  start_time : ℚ
  end_time : ℚ
  confidence_score : ℚ
  source_segments : List Nat
  is_locked : Bool
  phase : Nat
  metadata : Option Metadata
deriving DecidableEq, Repr

/-- Placeholder row used only as the default of `List.getLastD`. -/
def noRow : RefinedSegment :=
  { id := 0, session_id := 0, refined_speaker_id := "", text := ""
    start_time := 0, end_time := 0, confidence_score := 0
    source_segments := [], is_locked := false, phase := 0, metadata := none }

/-- The database state: the two tables touched by the refiner, plus the
AUTOINCREMENT counter for `refined_segments.id`. -/
structure DB where
  segments : List RawSegment
  refined_segments : List RefinedSegment
  next_refined_id : Nat
deriving DecidableEq, Repr

/-- Model of `insert_refined_segment` (`database.py` lines 177-191).  The
INSERT names neither `is_locked` nor `phase`, so those columns keep the
schema defaults (0 and 0) whatever the metadata says. -/
def insert_refined_segment (db : DB) (session_id : Nat)
    (refined_speaker_id : String) (text : String)
    (start_time end_time confidence_score : ℚ)
    (source_segments : List Nat) (metadata : Option Metadata) : DB × Nat :=
  let rid := db.next_refined_id
  let row : RefinedSegment :=
    { id := rid, session_id := session_id
      refined_speaker_id := refined_speaker_id, text := text
      start_time := start_time, end_time := end_time
      confidence_score := confidence_score, source_segments := source_segments
      is_locked := false, phase := 0, metadata := metadata }
  ({ db with refined_segments := db.refined_segments ++ [row]
             next_refined_id := rid + 1 }, rid)

/-- The `json_extract(rs.metadata, '$.is_locked') = 1` test of the
`processed_segments` CTE: NULL metadata or a missing/false key fails it. -/
def metadata_locked (m : Option Metadata) : Bool :=
  match m with
  | some md => md.is_locked = some true
  | none => false

/-- Membership of a raw id in the `processed_segments` CTE of
`get_unrefined_segments` (`database.py` lines 129-135): source ids of rows
with `confidence_score >= 0.8` whose metadata says `is_locked`. -/
def is_processed (db : DB) (sid : Nat) : Bool :=
  db.refined_segments.any (fun r =>
    decide (r.confidence_score ≥ 0.8) && metadata_locked r.metadata
      && decide (sid ∈ r.source_segments))

/-- The `latest_refined` CTE (lines 136-140): the greatest refined-row id
per (refined_speaker_id, session_id) pair.  The TEXT speaker column joins
numerically against `segments.speaker_id`, hence `toString`. -/
def latest_refined_id (db : DB) (speaker : Nat) (session : Nat) : Option Nat :=
  (db.refined_segments.filter (fun r =>
      decide (r.refined_speaker_id = toString speaker)
        && decide (r.session_id = session))).foldl
    (fun acc r =>
      match acc with
      | none => some r.id
      | some m => some (max m r.id)) none

/-- Row lookup by id. -/
def row_with_id (db : DB) (rid : Nat) : Option RefinedSegment :=
  db.refined_segments.find? (fun r => r.id = rid)

/-- The second exclusion of `get_unrefined_segments` (lines 146-150): the
raw segment appears in the source list of the LATEST refined row of its
(speaker, session) pair. -/
def in_latest_refined (db : DB) (s : RawSegment) : Bool :=
  match latest_refined_id db s.speaker_id s.session_id with
  | none => false
  | some rid =>
    match row_with_id db rid with
    | none => false
    | some r => s.id ∈ r.source_segments

/-- Model of `get_unrefined_segments` (`database.py` lines 125-175): all raw
segments not excluded by either CTE, optionally filtered by session, ordered
by start time. -/
def get_unrefined_segments (db : DB) (session_filter : Option Nat) :
    List RawSegment :=
  (db.segments.filter (fun s =>
    !is_processed db s.id && !in_latest_refined db s
      && (match session_filter with
          | none => true
          | some sid => decide (s.session_id = sid)))).mergeSort
    (fun a b => a.start_time ≤ b.start_time)

/-- Model of `get_locked_segments` (`database.py` lines 207-221): rows of the
session with `is_locked = 1` (the COLUMN), most recent start time first,
optionally limited. -/
def get_locked_segments (db : DB) (session_id : Nat) (limit : Option Nat) :
    List RefinedSegment :=
  let ordered := (db.refined_segments.filter (fun r =>
    decide (r.session_id = session_id) && r.is_locked)).mergeSort
    (fun a b => b.start_time ≤ a.start_time)
  match limit with
  | some n => ordered.take n
  | none => ordered

/-- The per-session loop variables of `process_session` (`transcript_refiner.py`
lines 392-396): current speaker, open group, stripped texts, group start/end. -/
structure GroupState where
  current_speaker : Option Nat
  current_group : List RawSegment
  current_text : List String
  current_start : Option ℚ
  current_end : Option ℚ
deriving DecidableEq, Repr

/-- The empty loop state at the top of `process_session`. -/
def initGroupState : GroupState :=
  { current_speaker := none, current_group := [], current_text := []
    current_start := none, current_end := none }

/-- Closing a diarization group (`transcript_refiner.py` lines 406-424 and
444-462): insert one phase-0 refined segment (placeholder confidence 0.5,
metadata `needs_refinement`) for the open group; nothing happens when the
group is empty. -/
def close_group (db : DB) (session_id : Nat) (st : GroupState) : DB :=
  match st.current_group with
  | [] => db
  | g0 :: _ =>
    let speaker := st.current_speaker.getD 0
    (insert_refined_segment db session_id (toString speaker)
      (String.intercalate " " st.current_text)
      (st.current_start.getD 0) (st.current_end.getD 0) 0.5
      (st.current_group.map (fun s => s.id))
      (some { original_speaker := some g0.speaker_name
              original_speaker_id := some speaker
              start_time := some (st.current_start.getD 0)
              end_time := some (st.current_end.getD 0)
              phase := some 0
              is_locked := some false
              is_combined := some (decide (st.current_group.length > 1))
              needs_refinement := some true })).1

/-- One iteration of the `for segment in segments` loop of `process_session`
(lines 398-440): on a speaker change close the open group and reset; when the
group is empty record the new start and speaker; then append the segment. -/
def process_step (session_id : Nat) (acc : DB × GroupState)
    (segment : RawSegment) : DB × GroupState :=
  let db := acc.1
  let st := acc.2
  let closed :=
    if st.current_speaker ≠ none ∧ st.current_speaker ≠ some segment.speaker_id then
      (close_group db session_id st,
       { st with current_group := [], current_text := []
                 current_start := none, current_end := none })
    else (db, st)
  let st1 :=
    if closed.2.current_group.isEmpty then
      { closed.2 with current_start := some segment.start_time
                      current_speaker := some segment.speaker_id }
    else closed.2
  (closed.1,
   { st1 with current_group := st1.current_group ++ [segment]
              current_text := st1.current_text ++ [segment.text.trim]
              current_end := some segment.end_time })

/-- Model of `TranscriptRefiner.process_session` (`transcript_refiner.py`
lines 379-472): fetch the session's unrefined segments, return unchanged
when there are none, otherwise sort by start time, run the diarization
loop, and close the trailing group ("Handle last group"). -/
def process_session (db : DB) (session_id : Nat) : DB :=
  match get_unrefined_segments db (some session_id) with
  | [] => db
  | s :: rest =>
    let folded := (sortByStart (s :: rest)).foldl (process_step session_id)
      (db, initGroupState)
    close_group folded.1 session_id folded.2

/-- The multiset of raw ids consumed across all refined rows, as collected
by `audit_segment_usage.audit_segment_integrity` (`audit_segment_usage.py`
lines 15-24). -/
def used_raw_ids (db : DB) : List Nat :=
  db.refined_segments.foldl (fun acc r => acc ++ r.source_segments) []

/-- A parsed reply of the text service: the `Text:` / `Confidence:` /
`Complete:` / `Combined:` line-prefixed fields, with the parser defaults
(`None`, `0.0`, `False`) standing in for missing or malformed lines. -/
structure ParsedReply where
  text : Option String
  confidence : ℚ
  complete : Bool
  combined : Bool
deriving DecidableEq, Repr

/-- Outcome of one `call_openai_text` call: the call raised an exception,
returned a falsy value, or returned a reply (already parsed). -/
inductive ServiceResult where
  | failure : ServiceResult
  | empty : ServiceResult
  | response : ParsedReply → ServiceResult
deriving DecidableEq, Repr

/-- The refined text the service path of `phase1_refinement` actually uses:
present only when the call neither raised nor returned a falsy value, and
the parsed `Text:` field is a non-empty string (`if refined_text:`). -/
def usable_text (svc : ServiceResult) : Option String :=
  match svc with
  | .response r =>
    match r.text with
    | some t => if t = "" then none else some t
    | none => none
  | _ => none

/-- Whether `phase1_refinement` falls back to the heuristic path: the call
raised, returned a falsy value, or its reply had no usable `Text:` field. -/
def is_fallback (svc : ServiceResult) : Bool :=
  (usable_text svc).isNone

/-- The heuristic fallback insert of `phase1_refinement` (lines 177-205 and
286-314): raw combined text, `calculate_confidence`, and a lock flag that is
just `confidence >= 0.8`. -/
def phase1_fallback_insert (db : DB) (session_id : Nat) (segment : RawSegment)
    (group : List RawSegment) : DB :=
  let c := combine_segments group
  let confidence := calculate_confidence c.1 group
  (insert_refined_segment db session_id (toString segment.speaker_id) c.1
    c.2.1 c.2.2 confidence ((sortByStart group).map (fun s => s.id))
    (some { original_speaker := some segment.speaker_name
            original_speaker_id := some segment.speaker_id
            start_time := some c.2.1
            end_time := some c.2.2
            phase := some 1
            is_locked := some (decide (confidence ≥ 0.8))
            is_combined := some (decide (group.length > 1)) })).1

/-- Processing of one closed group inside `phase1_refinement`
(`transcript_refiner.py` lines 100-207, and identically 210-314 for the
trailing group): with a usable service reply, insert the refined text with
the service confidence and lock flag `confidence >= 0.8 and is_complete`;
on a raised call, falsy reply, or reply without usable text, fall back to
`phase1_fallback_insert`.  `segment` is the loop variable whose speaker
fields the insert reads. -/
def phase1_process_group (db : DB) (session_id : Nat) (segment : RawSegment)
    (group : List RawSegment) (svc : ServiceResult) : DB :=
  let c := combine_segments group
  match svc with
  | .response r =>
    match r.text with
    | some t =>
      if t = "" then phase1_fallback_insert db session_id segment group
      else
        (insert_refined_segment db session_id (toString segment.speaker_id) t
          c.2.1 c.2.2 r.confidence ((sortByStart group).map (fun s => s.id))
          (some { original_speaker := some segment.speaker_name
                  original_speaker_id := some segment.speaker_id
                  start_time := some c.2.1
                  end_time := some c.2.2
                  phase := some 1
                  is_locked := some (decide (r.confidence ≥ 0.8) && r.complete)
                  is_combined := some r.combined })).1
    | none => phase1_fallback_insert db session_id segment group
  | _ => phase1_fallback_insert db session_id segment group

/-- The row `phase1_process_group` just inserted (it always inserts exactly
one row, at the end of the table). -/
def phase1_inserted_row (db : DB) (session_id : Nat) (segment : RawSegment)
    (group : List RawSegment) (svc : ServiceResult) : RefinedSegment :=
  (phase1_process_group db session_id segment group svc).refined_segments.getLastD noRow

/-- The lock decision of `refine_diarized_segments` (`transcript_refiner.py`
lines 495-514), taken from the metadata recorded by PREVIOUS attempts:
high confidence and complete first, then three or more attempts, then more
than 300 seconds since the first attempt. -/
def lock_decision (m : Metadata) (now : ℚ) : Bool × Option String :=
  if m.confidence.getD 0 ≥ 0.8 ∧ m.is_complete.getD false = true then
    (true, some "high_confidence_complete")
  else if m.refinement_attempts.getD 0 ≥ 3 then
    (true, some "max_attempts")
  else
    match m.first_attempt_time with
    | some t => if now - t > 300 then (true, some "time_elapsed") else (false, none)
    | none => (false, none)

/-- The `metadata.update({...})` of `refine_diarized_segments` (lines
552-567) applied when an attempt completes: record the reply's confidence
and completeness, bump the attempt count, store the lock decision, and set
`first_attempt_time` when absent. -/
def attempt_metadata (m : Metadata) (r : ParsedReply) (now : ℚ) : Metadata :=
  let sl := lock_decision m now
  let m1 : Metadata :=
    { m with confidence := some r.confidence
             is_complete := some r.complete
             refinement_attempts := some (m.refinement_attempts.getD 0 + 1)
             last_attempt_time := some now
             lock_reason := some (if sl.1 then sl.2 else none)
             phase := some 1
             is_locked := some sl.1
             needs_refinement := some (!sl.1) }
  if m1.first_attempt_time = none then
    { m1 with first_attempt_time := some now }
  else m1

/-- Processing of one pending phase-0 row inside `refine_diarized_segments`
(`transcript_refiner.py` lines 490-583): with a usable reply, append a new
row with the refined text, the reply confidence and the updated metadata
(same `source_segments`); when the call raises, returns a falsy value or
has no usable `Text:` line, the handler logs and CONTINUES — no row is
inserted and no heuristic fallback exists on this path. -/
def refine_segment_step (db : DB) (seg : RefinedSegment) (svc : ServiceResult)
    (now : ℚ) : DB :=
  let m := seg.metadata.getD {}
  match svc with
  | .response r =>
    match r.text with
    | some t =>
      if t = "" then db
      else
        (insert_refined_segment db seg.session_id seg.refined_speaker_id t
          seg.start_time seg.end_time r.confidence seg.source_segments
          (some (attempt_metadata m r now))).1
    | none => db
  | _ => db

/-- The columns of the `refined_segments` table, from the CREATE TABLE in
`database.py` lines 62-78.  A `sqlite3.Row` lookup with any other key
raises `IndexError`. -/
def refined_segment_columns : List String :=
  ["id", "session_id", "refined_speaker_id", "text", "start_time", "end_time",
   "confidence_score", "source_segments", "last_updated", "is_locked",
   "phase", "metadata"]

/-- Model of `TranscriptRefiner.phase2_refinement` (`transcript_refiner.py`
lines 318-377).  `reply` is the `call_openai_text` outcome (`none` for a
raised call or falsy result).  With fewer than three locked rows, or no
corrected text, nothing happens.  Otherwise the insert call evaluates
`target_segment['speaker_id']` and `target_segment['speaker_name']`; the
`refined_segments` row has neither column, the lookup raises `IndexError`,
the enclosing `except` swallows it, and nothing is inserted — so the branch
performing the insert is reachable only if those keys were columns. -/
def phase2_refinement (db : DB) (session_id : Nat) (reply : Option String) : DB :=
  match get_locked_segments db session_id (some 3) with
  | _prev :: target :: _next :: _ =>
    match reply with
    | none => db
    | some corrected_text =>
      if corrected_text = "" then db
      else if "speaker_id" ∈ refined_segment_columns
              ∧ "speaker_name" ∈ refined_segment_columns then
        -- Unreachable: stands in for the source's insert, which would store
        -- confidence 0.9, lock metadata, corrections_applied, and — note —
        -- `source_segments = [target refined id]`, not the target's raw ids.
        (insert_refined_segment db session_id target.refined_speaker_id
          corrected_text target.start_time target.end_time 0.9 [target.id]
          (some { original_speaker := none
                  original_speaker_id := none
                  start_time := some target.start_time
                  end_time := some target.end_time
                  phase := some 2
                  is_locked := some true
                  corrections_applied := some true })).1
      else db
  | _ => db

/-- Spec-side definition for the refinement claim C5, stated from the spec's
words (§4.2): `confidence = min(base + segmentFactor*0.2 + lengthFactor*0.1,
1.0)` with `base = 0.7` if the stripped text ends in one of `.`, `!`, `?`,
`...` else `0.3`, `segmentFactor = min(sourceCount/3, 1.0)`, `lengthFactor =
min(wordCount/10, 1.0)`. -/
def calculate_confidence_spec {α : Type} (text : String) (segments : List α) : ℚ :=
  let base : ℚ :=
    if [".", "!", "?", "..."].any (fun e => text.trim.endsWith e) then 0.7 else 0.3
  min (base + min ((segments.length : ℚ) / 3) 1 * 0.2
         + min ((wordCount text : ℚ) / 10) 1 * 0.1) 1

/-- Spec-side definition for claim C4: the "completeness signal" of a
phase-1 refinement — the parsed `Complete:` flag on the service path, the
heuristic sentence-completeness of the stored (raw combined) text on the
fallback path. -/
def completeness_signal (svc : ServiceResult) (stored_text : String) : Bool :=
  match usable_text svc with
  | some _ =>
    match svc with
    | .response r => r.complete
    | _ => false
  | none => is_complete_sentence stored_text

/-- An empty database (AUTOINCREMENT starts at 1). -/
def dbEmpty : DB := { segments := [], refined_segments := [], next_refined_id := 1 }

/-- Three raw segments of one session with speakers A, B, A — the C1
scenario. -/
def dbABA : DB :=
  { segments :=
      [{ id := 1, session_id := 1, speaker_id := 10, speaker_name := "Alice"
         text := "hello", start_time := 0, end_time := 1 },
       { id := 2, session_id := 1, speaker_id := 20, speaker_name := "Bob"
         text := "hi", start_time := 1, end_time := 2 },
       { id := 3, session_id := 1, speaker_id := 10, speaker_name := "Alice"
         text := "again", start_time := 2, end_time := 3 }]
    refined_segments := []
    next_refined_id := 1 }

/-- Two raw segments of one session, the SAME speaker throughout — the C2
scenario: no speaker change ever occurs and no time passes. -/
def dbSameSpeaker : DB :=
  { segments :=
      [{ id := 1, session_id := 1, speaker_id := 10, speaker_name := "Alice"
         text := "hello", start_time := 0, end_time := 1 },
       { id := 2, session_id := 1, speaker_id := 10, speaker_name := "Alice"
         text := "there", start_time := 1, end_time := 2 }]
    refined_segments := []
    next_refined_id := 1 }

/-- A locked refined row (is_locked COLUMN set) for the phase-2 scenarios:
row `n` spans `[n-1, n]` and consumed raw ids `[2*n-1, 2*n]`. -/
def lockedRow (n : Nat) : RefinedSegment :=
  { id := n, session_id := 1, refined_speaker_id := "10"
    text := "Locked text number " ++ toString n ++ "."
    start_time := (n : ℚ) - 1, end_time := (n : ℚ)
    confidence_score := 0.9, source_segments := [2 * n - 1, 2 * n]
    is_locked := true, phase := 1
    metadata := some { phase := some 1, is_locked := some true } }

/-- A session with three locked refined segments — the C3 scenario. -/
def dbThreeLocked : DB :=
  { segments := [], refined_segments := [lockedRow 1, lockedRow 2, lockedRow 3]
    next_refined_id := 4 }

/-- A session with only two locked refined segments — the C9 witness. -/
def dbTwoLocked : DB :=
  { segments := [], refined_segments := [lockedRow 1, lockedRow 2]
    next_refined_id := 3 }

/-- A pending phase-0 diarization row, as `process_session` writes it — the
C6 scenario row. -/
def pendingRow : RefinedSegment :=
  { id := 1, session_id := 1, refined_speaker_id := "10"
    text := "hello there", start_time := 0, end_time := 2
    confidence_score := 0.5, source_segments := [1, 2]
    is_locked := false, phase := 0
    metadata := some { phase := some 0, is_locked := some false
                       is_combined := some true, needs_refinement := some true
                       original_speaker := some "Alice"
                       original_speaker_id := some 10
                       start_time := some 0, end_time := some 2 } }

/-- A database holding just `pendingRow`. -/
def dbPending : DB :=
  { segments := [], refined_segments := [pendingRow], next_refined_id := 2 }

/-- A pending row whose metadata records three earlier refinement attempts
AND a high-confidence complete result — the C7 scenario. -/
def attemptsRow : RefinedSegment :=
  { pendingRow with
    metadata := some { phase := some 1, is_locked := some false
                       needs_refinement := some true
                       confidence := some 0.9, is_complete := some true
                       refinement_attempts := some 3
                       first_attempt_time := some 0 } }

/-- A database holding just `attemptsRow`. -/
def dbAttempts : DB :=
  { segments := [], refined_segments := [attemptsRow], next_refined_id := 2 }

/-- A successful, fully parsed service reply. -/
def okReply : ParsedReply :=
  { text := some "Fixed text.", confidence := 0.95, complete := true
    combined := false }

/-- Two OVERLAPPING raw segments: the first starts earlier but ends LATER
than the second — the C8 scenario. -/
def overlapA : RawSegment :=
  { id := 1, session_id := 1, speaker_id := 10, speaker_name := "Alice"
    text := "long one", start_time := 0, end_time := 10 }

/-- Second overlapping segment, contained inside `overlapA`'s span. -/
def overlapB : RawSegment :=
  { id := 2, session_id := 1, speaker_id := 10, speaker_name := "Alice"
    text := "short", start_time := 1, end_time := 2 }

/-- A three-segment group whose combined text is a complete sentence and
whose heuristic confidence reaches the lock threshold — the C10 witness. -/
def groupW : List RawSegment :=
  [{ id := 1, session_id := 1, speaker_id := 10, speaker_name := "Alice"
     text := "We should", start_time := 0, end_time := 1 },
   { id := 2, session_id := 1, speaker_id := 10, speaker_name := "Alice"
     text := "proceed with", start_time := 1, end_time := 2 },
   { id := 3, session_id := 1, speaker_id := 10, speaker_name := "Alice"
     text := "the plan.", start_time := 2, end_time := 3 }]

/-- A pending row with three recorded attempts but LOW confidence — the C7
witness scenario (rule 2 fires, reason `max_attempts`). -/
def lowAttemptsRow : RefinedSegment :=
  { pendingRow with
    metadata := some { phase := some 1, is_locked := some false
                       needs_refinement := some true
                       confidence := some 0.2, is_complete := some false
                       refinement_attempts := some 3
                       first_attempt_time := some 0 } }

/-- A database holding just `lowAttemptsRow`. -/
def dbLowAttempts : DB :=
  { segments := [], refined_segments := [lowAttemptsRow], next_refined_id := 2 }

theorem getLastD_append_single {α : Type} (l : List α) (a d : α) :
    (l ++ [a]).getLastD d = a :=
  List.getLastD_concat d a l

/-- Whenever the heuristic confidence reaches the 0.8 lock threshold, the
text must be a complete sentence: an incomplete sentence is capped at
0.3 + 0.2 + 0.1 = 0.6. -/
theorem confidence_ge_imp_complete {α : Type} (text : String) (segments : List α)
    (h : calculate_confidence text segments ≥ 0.8) :
    is_complete_sentence text = true := by
  by_cases hc : is_complete_sentence text = true
  · exact hc
  · exfalso
    have hc' : is_complete_sentence text = false := by
      cases hcc : is_complete_sentence text
      · rfl
      · exact absurd hcc hc
    by_cases ht : text = ""
    · simp only [calculate_confidence, ht, if_true, if_pos] at h
      norm_num at h
    · simp only [calculate_confidence, ht, if_false, hc', Bool.false_eq_true] at h
      have h1 : min ((segments.length : ℚ) / 3) 1 ≤ 1 := min_le_right _ _
      have h2 : min ((wordCount text : ℚ) / 10) 1 ≤ 1 := min_le_right _ _
      have h3 : min ((segments.length : ℚ) / 3) 1 * 0.2 ≤ 1 * 0.2 :=
        mul_le_mul_of_nonneg_right h1 (by norm_num)
      have h4 : min ((wordCount text : ℚ) / 10) 1 * 0.1 ≤ 1 * 0.1 :=
        mul_le_mul_of_nonneg_right h2 (by norm_num)
      have h5 : min ((0.3 : ℚ) + min ((segments.length : ℚ) / 3) 1 * 0.2
            + min ((wordCount text : ℚ) / 10) 1 * 0.1) 1
          ≤ (0.3 : ℚ) + min ((segments.length : ℚ) / 3) 1 * 0.2
            + min ((wordCount text : ℚ) / 10) 1 * 0.1 := min_le_left _ _
      nlinarith

/-- On every fallback occasion (raised call, falsy reply, unusable text),
`phase1_process_group` takes the heuristic insert. -/
theorem phase1_fallback_cases (db : DB) (session_id : Nat) (segment : RawSegment)
    (group : List RawSegment) (svc : ServiceResult) (h : is_fallback svc = true) :
    phase1_process_group db session_id segment group svc
      = phase1_fallback_insert db session_id segment group := by
  cases svc with
  | failure => rfl
  | empty => rfl
  | response r =>
    cases hrt : r.text with
    | none => simp [phase1_process_group, hrt]
    | some t =>
      have hte : t = "" := by
        by_contra hne
        simp [is_fallback, usable_text, hrt, hne] at h
      simp [phase1_process_group, hrt, hte]

/-- The row appended by the heuristic insert, made explicit. -/
theorem phase1_fallback_row (db : DB) (session_id : Nat) (segment : RawSegment)
    (group : List RawSegment) :
    (phase1_fallback_insert db session_id segment group).refined_segments.getLastD noRow
      = { id := db.next_refined_id, session_id := session_id
          refined_speaker_id := toString segment.speaker_id
          text := (combine_segments group).1
          start_time := (combine_segments group).2.1
          end_time := (combine_segments group).2.2
          confidence_score := calculate_confidence (combine_segments group).1 group
          source_segments := (sortByStart group).map (fun s => s.id)
          is_locked := false, phase := 0
          metadata := some
            { original_speaker := some segment.speaker_name
              original_speaker_id := some segment.speaker_id
              start_time := some (combine_segments group).2.1
              end_time := some (combine_segments group).2.2
              phase := some 1
              is_locked := some (decide
                (calculate_confidence (combine_segments group).1 group ≥ 0.8))
              is_combined := some (decide (group.length > 1)) } } := by
  simp [phase1_fallback_insert, insert_refined_segment, getLastD_append_single]

/-- C4: for every phase-1 refined segment produced by `phase1_refinement`
(service path or heuristic fallback path), the stored lock flag is true iff
the segment's confidence is at least 0.8 and its completeness signal is true
(the parsed `Complete:` flag on the service path, heuristic sentence
completeness of the stored text on the fallback path). -/
theorem claim_c4_lock_iff (db : DB) (session_id : Nat) (segment : RawSegment)
    (group : List RawSegment) (svc : ServiceResult) :
    ((phase1_inserted_row db session_id segment group svc).metadata.getD {}).is_locked
      = some ((decide
          ((phase1_inserted_row db session_id segment group svc).confidence_score ≥ 0.8))
        && completeness_signal svc
             (phase1_inserted_row db session_id segment group svc).text) := by
  by_cases hf : is_fallback svc = true
  · have h1 : phase1_inserted_row db session_id segment group svc
        = (phase1_fallback_insert db session_id segment group).refined_segments.getLastD noRow := by
      unfold phase1_inserted_row
      rw [phase1_fallback_cases db session_id segment group svc hf]
    rw [h1, phase1_fallback_row]
    have hcs : completeness_signal svc (combine_segments group).1
        = is_complete_sentence (combine_segments group).1 := by
      unfold completeness_signal
      rw [Option.isNone_iff_eq_none.mp hf]
    simp only [Option.getD_some]
    rw [hcs]
    cases hd : decide (calculate_confidence (combine_segments group).1 group ≥ 0.8)
    · simp
    · have hcomp := confidence_ge_imp_complete (combine_segments group).1 group
        (of_decide_eq_true hd)
      simp [hcomp]
  · cases svc with
    | failure => exact absurd rfl hf
    | empty => exact absurd rfl hf
    | response r =>
      cases hrt : r.text with
      | none => exact absurd (by simp [is_fallback, usable_text, hrt]) hf
      | some t =>
        by_cases hte : t = ""
        · exact absurd (by simp [is_fallback, usable_text, hrt, hte]) hf
        · simp only [phase1_inserted_row, phase1_process_group, hrt, if_neg hte,
            insert_refined_segment, getLastD_append_single, completeness_signal,
            usable_text, Option.getD_some]

/-- C5 (amended): for every NON-EMPTY text and every segment list,
`calculate_confidence` computes exactly the spec's formula; the empty text
short-circuits to 0.0 instead (see the counterexample). -/
theorem claim_c5_amended {α : Type} (text : String) (segments : List α)
    (h : text ≠ "") :
    calculate_confidence text segments = calculate_confidence_spec text segments := by
  simp only [calculate_confidence, calculate_confidence_spec, is_complete_sentence,
    sentence_endings, if_neg h]

/-- C5 counterexample: on the empty text with one source segment the code
returns 0.0 while the spec formula yields 0.3 + (1/3)*0.2 = 11/30. -/
theorem claim_c5_counterexample :
    calculate_confidence "" ([()] : List Unit) = 0
      ∧ calculate_confidence_spec "" ([()] : List Unit) = 11 / 30
      ∧ calculate_confidence "" ([()] : List Unit)
          ≠ calculate_confidence_spec "" ([()] : List Unit) := by
  refine ⟨?_, ?_, ?_⟩ <;> with_unfolding_all decide

/-- C5 witness: the amended claim applied to a concrete non-empty text. -/
theorem claim_c5_witness :
    calculate_confidence "Hello there." ([()] : List Unit)
      = calculate_confidence_spec "Hello there." ([()] : List Unit) :=
  claim_c5_amended "Hello there." [()] (by with_unfolding_all decide)

/-- C10: on the heuristic fallback path of `phase1_refinement`, a refined
segment stored with lock flag true has sentence-terminated text — a
non-terminated text's heuristic confidence is capped at 0.6 < 0.8. -/
theorem claim_c10_heuristic_lock (db : DB) (session_id : Nat)
    (segment : RawSegment) (group : List RawSegment) (svc : ServiceResult)
    (hf : is_fallback svc = true)
    (hl : ((phase1_inserted_row db session_id segment group svc).metadata.getD
        {}).is_locked = some true) :
    is_complete_sentence (phase1_inserted_row db session_id segment group svc).text
      = true := by
  have h1 : phase1_inserted_row db session_id segment group svc
      = (phase1_fallback_insert db session_id segment group).refined_segments.getLastD noRow := by
    unfold phase1_inserted_row
    rw [phase1_fallback_cases db session_id segment group svc hf]
  rw [h1, phase1_fallback_row] at hl ⊢
  simp only [Option.getD_some, Option.some.injEq] at hl
  exact confidence_ge_imp_complete (combine_segments group).1 group
    (of_decide_eq_true hl)

/-- C10 witness: a three-segment group whose combined text "We should
proceed with the plan." locks heuristically (confidence 0.96), and is
indeed sentence-terminated. -/
theorem claim_c10_witness :
    is_complete_sentence
        (phase1_inserted_row dbEmpty 1 overlapA groupW ServiceResult.failure).text
      = true :=
  claim_c10_heuristic_lock dbEmpty 1 overlapA groupW ServiceResult.failure
    (by rfl) (by with_unfolding_all decide)

/-- C6 (amended): a service failure never escapes either refinement path,
but only `phase1_refinement` degrades to a heuristic segment (raw combined
text, `calculate_confidence` score); `refine_diarized_segments` catches the
error and skips the group WITHOUT inserting anything. -/
theorem claim_c6_amended (db : DB) (session_id : Nat) (segment : RawSegment)
    (group : List RawSegment) (db2 : DB) (seg2 : RefinedSegment) (now : ℚ)
    (svc : ServiceResult) (h : is_fallback svc = true) :
    ((phase1_inserted_row db session_id segment group svc).text
        = (combine_segments group).1
      ∧ (phase1_inserted_row db session_id segment group svc).confidence_score
        = calculate_confidence (combine_segments group).1 group)
    ∧ refine_segment_step db2 seg2 svc now = db2 := by
  have h1 : phase1_inserted_row db session_id segment group svc
      = (phase1_fallback_insert db session_id segment group).refined_segments.getLastD noRow := by
    unfold phase1_inserted_row
    rw [phase1_fallback_cases db session_id segment group svc h]
  refine ⟨⟨?_, ?_⟩, ?_⟩
  · rw [h1, phase1_fallback_row]
  · rw [h1, phase1_fallback_row]
  · cases svc with
    | failure => rfl
    | empty => rfl
    | response r =>
      cases hrt : r.text with
      | none => simp [refine_segment_step, hrt]
      | some t =>
        have hte : t = "" := by
          by_contra hne
          simp [is_fallback, usable_text, hrt, hne] at h
        simp [refine_segment_step, hrt, hte]

/-- C6 counterexample: a pending phase-0 group processed by
`refine_diarized_segments` with a raised service call produces NO refined
segment at all — the claim's "a refined segment is still produced" fails on
this path. -/
theorem claim_c6_counterexample :
    refine_segment_step dbPending pendingRow ServiceResult.failure 0 = dbPending
      ∧ (refine_segment_step dbPending pendingRow ServiceResult.failure
          0).refined_segments.length = dbPending.refined_segments.length :=
  ⟨rfl, rfl⟩

/-- C6 witness: the amended claim at a concrete fallback instance. -/
theorem claim_c6_witness :
    ((phase1_inserted_row dbEmpty 1 overlapA groupW ServiceResult.failure).text
        = (combine_segments groupW).1
      ∧ (phase1_inserted_row dbEmpty 1 overlapA groupW
          ServiceResult.failure).confidence_score
        = calculate_confidence (combine_segments groupW).1 groupW)
    ∧ refine_segment_step dbPending pendingRow ServiceResult.failure 0 = dbPending :=
  claim_c6_amended dbEmpty 1 overlapA groupW dbPending pendingRow 0
    ServiceResult.failure (by rfl)

/-- Projection: the stored metadata lock flag is the lock decision. -/
theorem attempt_metadata_is_locked (m : Metadata) (r : ParsedReply) (now : ℚ) :
    (attempt_metadata m r now).is_locked = some (lock_decision m now).1 := by
  simp only [attempt_metadata]
  split <;> rfl

/-- Projection: the stored lock reason is the decision's reason when the
decision locks, `None` otherwise. -/
theorem attempt_metadata_lock_reason (m : Metadata) (r : ParsedReply) (now : ℚ) :
    (attempt_metadata m r now).lock_reason
      = some (if (lock_decision m now).1 then (lock_decision m now).2 else none) := by
  simp only [attempt_metadata]
  split <;> rfl

/-- C7 (amended): when a phase-1 attempt completes on a segment with three
or more recorded attempts, the new row is locked; the recorded reason is
`max_attempts` UNLESS the high-confidence-and-complete rule also applies,
which takes precedence with reason `high_confidence_complete`. -/
theorem claim_c7_amended (db : DB) (seg : RefinedSegment) (r : ParsedReply)
    (t : String) (now : ℚ) (ht : r.text = some t) (hne : t ≠ "")
    (hatt : 3 ≤ (seg.metadata.getD {}).refinement_attempts.getD 0) :
    (attempt_metadata (seg.metadata.getD {}) r now).is_locked = some true
    ∧ (attempt_metadata (seg.metadata.getD {}) r now).lock_reason
      = some (some (if (seg.metadata.getD {}).confidence.getD 0 ≥ 0.8
                      ∧ (seg.metadata.getD {}).is_complete.getD false = true
                    then "high_confidence_complete" else "max_attempts"))
    ∧ refine_segment_step db seg (.response r) now
      = (insert_refined_segment db seg.session_id seg.refined_speaker_id t
          seg.start_time seg.end_time r.confidence seg.source_segments
          (some (attempt_metadata (seg.metadata.getD {}) r now))).1 := by
  have hlock : lock_decision (seg.metadata.getD {}) now
      = (true, some (if (seg.metadata.getD {}).confidence.getD 0 ≥ 0.8
                       ∧ (seg.metadata.getD {}).is_complete.getD false = true
                     then "high_confidence_complete" else "max_attempts")) := by
    by_cases hc : (seg.metadata.getD {}).confidence.getD 0 ≥ 0.8
        ∧ (seg.metadata.getD {}).is_complete.getD false = true
    · simp [lock_decision, hc]
    · simp only [lock_decision, if_neg hc, ge_iff_le, if_pos hatt]
  refine ⟨?_, ?_, ?_⟩
  · rw [attempt_metadata_is_locked, hlock]
  · rw [attempt_metadata_lock_reason, hlock]
    simp
  · simp only [refine_segment_step, ht, if_neg hne]

/-- C7 counterexample: a segment with three recorded attempts AND a
high-confidence complete previous result is locked with reason
`high_confidence_complete`, not `max_attempts` as the claim states. -/
theorem claim_c7_counterexample :
    3 ≤ (attemptsRow.metadata.getD {}).refinement_attempts.getD 0
    ∧ (((refine_segment_step dbAttempts attemptsRow (.response okReply)
          0).refined_segments.getLastD noRow).metadata.getD {}).lock_reason
        = some (some "high_confidence_complete")
    ∧ ¬ (((refine_segment_step dbAttempts attemptsRow (.response okReply)
          0).refined_segments.getLastD noRow).metadata.getD {}).lock_reason
        = some (some "max_attempts") := by
  refine ⟨?_, ?_, ?_⟩ <;> with_unfolding_all decide

/-- C7 witness: the amended claim at a three-attempt, low-confidence
segment, where the reason is indeed `max_attempts`. -/
theorem claim_c7_witness :
    (attempt_metadata (lowAttemptsRow.metadata.getD {}) okReply 5).is_locked
        = some true
    ∧ (attempt_metadata (lowAttemptsRow.metadata.getD {}) okReply 5).lock_reason
      = some (some (if (lowAttemptsRow.metadata.getD {}).confidence.getD 0 ≥ 0.8
                      ∧ (lowAttemptsRow.metadata.getD {}).is_complete.getD false = true
                    then "high_confidence_complete" else "max_attempts"))
    ∧ refine_segment_step dbLowAttempts lowAttemptsRow (.response okReply) 5
      = (insert_refined_segment dbLowAttempts lowAttemptsRow.session_id
          lowAttemptsRow.refined_speaker_id "Fixed text." lowAttemptsRow.start_time
          lowAttemptsRow.end_time okReply.confidence lowAttemptsRow.source_segments
          (some (attempt_metadata (lowAttemptsRow.metadata.getD {}) okReply 5))).1 :=
  claim_c7_amended dbLowAttempts lowAttemptsRow okReply "Fixed text." 5 (by rfl)
    (by with_unfolding_all decide) (by with_unfolding_all decide)

/-- C9: with fewer than three locked refined segments for the session, the
correction pass is a no-op — no insert, no state change. -/
theorem claim_c9_noop (db : DB) (session_id : Nat) (reply : Option String)
    (h : (get_locked_segments db session_id (some 3)).length < 3) :
    phase2_refinement db session_id reply = db := by
  rcases hl : get_locked_segments db session_id (some 3)
    with _ | ⟨a, _ | ⟨b, _ | ⟨c, rest⟩⟩⟩
  · simp [phase2_refinement, hl]
  · simp [phase2_refinement, hl]
  · simp [phase2_refinement, hl]
  · rw [hl] at h
    simp only [List.length_cons] at h
    omega

/-- C9 witness: a session with exactly two locked segments is untouched. -/
theorem claim_c9_witness :
    phase2_refinement dbTwoLocked 1 (some "Corrected text.") = dbTwoLocked :=
  claim_c9_noop dbTwoLocked 1 (some "Corrected text.")
    (by with_unfolding_all decide)

theorem start_le_trans (a b c : RawSegment)
    (h1 : decide (a.start_time ≤ b.start_time) = true)
    (h2 : decide (b.start_time ≤ c.start_time) = true) :
    decide (a.start_time ≤ c.start_time) = true :=
  decide_eq_true (le_trans (of_decide_eq_true h1) (of_decide_eq_true h2))

theorem start_le_total (a b : RawSegment) :
    (decide (a.start_time ≤ b.start_time)
      || decide (b.start_time ≤ a.start_time)) = true := by
  rcases le_total a.start_time b.start_time with h | h <;> simp [h]

/-- The stable sort used throughout the refiner is sorted by start time. -/
theorem sortByStart_pairwise (l : List RawSegment) :
    (sortByStart l).Pairwise (fun a b => a.start_time ≤ b.start_time) := by
  unfold sortByStart
  exact (List.sorted_mergeSort start_le_trans start_le_total l).imp
    (fun h => of_decide_eq_true h)

theorem getLastD_mem {α : Type} (l : List α) (h : l ≠ []) (d : α) :
    l.getLastD d ∈ l := by
  rw [List.getLastD_eq_getLast?, List.getLast?_eq_getLast l h]
  simp [List.getLast_mem]

theorem pairwise_le_getLastD : ∀ (l : List RawSegment) (d : RawSegment),
    l.Pairwise (fun a b => a.start_time ≤ b.start_time) →
    ∀ x ∈ l, x.start_time ≤ (l.getLastD d).start_time := by
  intro l
  induction l with
  | nil =>
    intro d _ x hx
    cases hx
  | cons a t ih =>
    intro d hp x hx
    have hpc := List.pairwise_cons.mp hp
    rw [List.getLastD_cons]
    rcases List.mem_cons.mp hx with rfl | hxt
    · cases t with
      | nil => simp
      | cons b t2 =>
        exact hpc.1 _ (getLastD_mem (b :: t2) (by simp) x)
    · exact ih a hpc.2 x hxt

/-- C8 (amended): for a non-empty group, the combined start time is the
minimum of the members' start times, and the combined end time is the end
time of a member with MAXIMAL START time (the last in start order) — which
need not carry the maximal end time when segments overlap. -/
theorem claim_c8_amended (group : List RawSegment) (h : group ≠ []) :
    ((combine_segments group).2.1 ∈ group.map (fun s => s.start_time)
      ∧ ∀ x ∈ group, (combine_segments group).2.1 ≤ x.start_time)
    ∧ ∃ s, s ∈ group ∧ (combine_segments group).2.2 = s.end_time
        ∧ ∀ x ∈ group, x.start_time ≤ s.start_time := by
  have hperm : (sortByStart group).Perm group := by
    unfold sortByStart
    exact List.mergeSort_perm group _
  have hpw := sortByStart_pairwise group
  rcases hs : sortByStart group with _ | ⟨first, rest⟩
  · exfalso
    apply h
    have hl := hperm.length_eq
    rw [hs] at hl
    exact List.length_eq_zero.mp hl.symm
  · rw [hs] at hperm hpw
    have hcomb : combine_segments group
        = (String.intercalate " " ((first :: rest).map (fun s => s.text.trim)),
           first.start_time, (rest.getLastD first).end_time) := by
      unfold combine_segments
      rw [hs]
    rw [hcomb]
    refine ⟨⟨?_, ?_⟩, ?_⟩
    · exact List.mem_map_of_mem _ (hperm.mem_iff.mp (by simp))
    · intro x hx
      rcases List.mem_cons.mp (hperm.mem_iff.mpr hx) with rfl | hxr
      · exact le_refl _
      · exact (List.pairwise_cons.mp hpw).1 x hxr
    · refine ⟨rest.getLastD first, ?_, rfl, ?_⟩
      · have hmem0 : (first :: rest).getLastD first ∈ first :: rest :=
          getLastD_mem _ (by simp) first
        rw [List.getLastD_cons] at hmem0
        exact hperm.mem_iff.mp hmem0
      · intro x hx
        have hb := pairwise_le_getLastD (first :: rest) first hpw x
          (hperm.mem_iff.mpr hx)
        rw [List.getLastD_cons] at hb
        exact hb

/-- C8 counterexample: with two overlapping segments (0-10 and 1-2 by start
time), the combined end time is 2 — the end of the LAST-BY-START segment —
while the maximum end time of the constituents is 10. -/
theorem claim_c8_counterexample :
    (combine_segments [overlapA, overlapB]).2.2 = 2
    ∧ ([overlapA, overlapB].map (fun s => s.end_time)).max? = some 10
    ∧ (combine_segments [overlapA, overlapB]).2.2 ≠ (10 : ℚ) := by
  refine ⟨?_, ?_, ?_⟩ <;> with_unfolding_all decide

/-- C8 witness: the amended claim at the concrete two-segment group. -/
theorem claim_c8_witness :
    ((combine_segments [overlapA, overlapB]).2.1
        ∈ [overlapA, overlapB].map (fun s => s.start_time)
      ∧ ∀ x ∈ [overlapA, overlapB],
          (combine_segments [overlapA, overlapB]).2.1 ≤ x.start_time)
    ∧ ∃ s, s ∈ [overlapA, overlapB]
        ∧ (combine_segments [overlapA, overlapB]).2.2 = s.end_time
        ∧ ∀ x ∈ [overlapA, overlapB], x.start_time ≤ s.start_time :=
  claim_c8_amended [overlapA, overlapB] (List.cons_ne_nil _ _)

theorem close_group_length_ge (db : DB) (session_id : Nat) (st : GroupState) :
    db.refined_segments.length ≤ (close_group db session_id st).refined_segments.length := by
  rcases hg : st.current_group with _ | ⟨g0, gs⟩
  · simp [close_group, hg]
  · simp [close_group, hg, insert_refined_segment]

theorem close_group_length_of_group (db : DB) (session_id : Nat)
    (st : GroupState) (h : st.current_group ≠ []) :
    (close_group db session_id st).refined_segments.length
      = db.refined_segments.length + 1 := by
  rcases hg : st.current_group with _ | ⟨g0, gs⟩
  · exact absurd hg h
  · simp [close_group, hg, insert_refined_segment]

theorem step_length_ge (session_id : Nat) (acc : DB × GroupState)
    (s : RawSegment) :
    acc.1.refined_segments.length
      ≤ ((process_step session_id acc s).1).refined_segments.length := by
  unfold process_step
  dsimp only
  split
  · exact close_group_length_ge _ _ _
  · exact le_refl _

theorem step_group_ne (session_id : Nat) (acc : DB × GroupState)
    (s : RawSegment) :
    (process_step session_id acc s).2.current_group ≠ [] := by
  unfold process_step
  dsimp only
  simp

theorem fold_length_ge (session_id : Nat) : ∀ (l : List RawSegment)
    (acc : DB × GroupState),
    acc.1.refined_segments.length
      ≤ ((l.foldl (process_step session_id) acc).1).refined_segments.length := by
  intro l
  induction l with
  | nil => intro acc; exact le_refl _
  | cons s t ih =>
    intro acc
    exact le_trans (step_length_ge session_id acc s)
      (ih (process_step session_id acc s))

/-- C2 (amended): every `process_session` pass over a session with pending
raw segments emits at least one phase-0 refined segment — the trailing group
is closed unconditionally at end of pass (the grouper consults no clock and
has no idle-duration configuration); groups close on speaker change or end
of input, never by a 120-second timer. -/
theorem claim_c2_amended (db : DB) (session_id : Nat)
    (h : get_unrefined_segments db (some session_id) ≠ []) :
    db.refined_segments.length
      < (process_session db session_id).refined_segments.length := by
  unfold process_session
  rcases hu : get_unrefined_segments db (some session_id) with _ | ⟨s, rest⟩
  · exact absurd hu h
  · dsimp only
    have hsne : sortByStart (s :: rest) ≠ [] := by
      intro hx
      have hlen : (sortByStart (s :: rest)).length = (s :: rest).length := by
        unfold sortByStart
        exact List.length_mergeSort (s :: rest)
      rw [hx] at hlen
      simp at hlen
    obtain ⟨l2, b, hconcat⟩ : ∃ l2 b, sortByStart (s :: rest) = l2 ++ [b] := by
      rcases List.eq_nil_or_concat (sortByStart (s :: rest)) with hnil | ⟨L, x, hLx⟩
      · exact absurd hnil hsne
      · exact ⟨L, x, by simpa [List.concat_eq_append] using hLx⟩
    rw [hconcat]
    simp only [List.foldl_append, List.foldl_cons, List.foldl_nil]
    have h1 : ((process_step session_id
        (l2.foldl (process_step session_id) (db, initGroupState)) b)).2.current_group ≠ [] :=
      step_group_ne _ _ _
    rw [close_group_length_of_group _ _ _ h1]
    have h2 := step_length_ge session_id
      (l2.foldl (process_step session_id) (db, initGroupState)) b
    have h3 := fold_length_ge session_id l2 (db, initGroupState)
    simp only at h3
    omega

/-- C2 counterexample: one `process_session` pass over a single-speaker
session closes the (only) group and emits its phase-0 row consuming raw ids
1 and 2, although no speaker change ever occurs and the grouper has no time
input at all — contradicting "a group is closed only by a speaker change or
by the 120-second idle timeout". -/
theorem claim_c2_counterexample :
    (process_session dbSameSpeaker 1).refined_segments.map
        (fun r => (r.source_segments, (r.metadata.getD {}).phase))
      = [([1, 2], some 0)] := by
  with_unfolding_all decide

/-- C2 witness: the amended claim at the single-speaker session. -/
theorem claim_c2_witness :
    dbSameSpeaker.refined_segments.length
      < (process_session dbSameSpeaker 1).refined_segments.length :=
  claim_c2_amended dbSameSpeaker 1 (by with_unfolding_all decide)

/-- C1: the code violates exclusive consumption.  Over the speakers A, B, A
session, the first `process_session` pass closes three groups (sources [1],
[2], [3]); on the second pass `get_unrefined_segments` re-offers raw id 1 —
row [1] is neither locked with confidence at least 0.8 nor the LATEST row of
its (speaker, session) pair — so a fourth row consuming [1] again is
created: raw id 1 ends up in the source lists of two distinct refined rows,
and the audit multiset has a duplicate. -/
theorem claim_c1_duplicate_consumption :
    (used_raw_ids (process_session (process_session dbABA 1) 1)).count 1 = 2
    ∧ ¬ (used_raw_ids (process_session (process_session dbABA 1) 1)).Nodup := by
  refine ⟨?_, ?_⟩ <;> with_unfolding_all decide

/-- C3: with three locked segments and a successful service reply, the
correction pass inserts NOTHING: the insert evaluates
`target_segment['speaker_id']` and `target_segment['speaker_name']`, keys
absent from `refined_segments` rows, so the lookup raises and the blanket
handler swallows it — no phase-2 segment is ever emitted, contradicting the
claim (which also expects the target's raw ids as sources, where the code
would store the target's own refined id). -/
theorem claim_c3_no_phase2_insert :
    3 ≤ (get_locked_segments dbThreeLocked 1 (some 3)).length
    ∧ phase2_refinement dbThreeLocked 1 (some "Corrected middle text.")
        = dbThreeLocked := by
  refine ⟨?_, ?_⟩ <;> with_unfolding_all decide
